import Mathlib

/-!
Verification of the gomill tournament scheduler (gomill/tournaments.py) and
of the GTP proxy layer it is tested with, as a shallow embedding in Lean.

Python dicts keyed by player code are embedded as association lists with an
update operation that overwrites in place or appends; mutable methods become
state transformers returning the new state together with an outcome and, for
methods that can raise, the exception raised.
-/

namespace Gomill

/-- A Python configuration value as it occurs in a `Matchup_config` keyword
argument: a bool, a string, or None. -/
inductive ConfigValue where
  | boolV (b : Bool)
  | strV (s : String)
  | noneV
  deriving DecidableEq, Repr

/-- Python truthiness of a `ConfigValue`, as used by
`if matchup.alternating`. -/
def ConfigValue.truthy : ConfigValue → Bool
  | .boolV b => b
  | .strV s => !s.isEmpty
  | .noneV => false

/-- Structure Matchup_config (declared in gomill/competitions.py): the raw
configuration entry.  Only the pieces `matchup_from_config` reads are
embedded: the positional arguments `args` and the keyword arguments
`kwargs`. -/
structure Matchup_config where
  args : List String
  kwargs : List (String × ConfigValue)
  deriving DecidableEq, Repr

/-- Internal description of a matchup (class Matchup, tournaments.py lines
11-23).  The `id` attribute is assigned afterwards in
`initialise_from_control_file` as the position in the matchup list; the
scheduler (`find_players`) reports the position directly, so `id` is not
carried here. -/
structure Matchup where
  p1 : String
  p2 : String
  alternating : ConfigValue
  description : ConfigValue
  deriving DecidableEq, Repr

/-- Function matchup_from_config (tournaments.py lines 25-48).  A raised ValueError
becomes `Except.error` with the message text (the Python original quotes the
offending key name; the quote characters are elided). -/
def matchup_from_config (matchup_config : Matchup_config) : Except String Matchup :=
  match matchup_config.kwargs.find?
      (fun kv => !(kv.1 == "alternating" || kv.1 == "description")) with
  | some kv => .error ("unknown argument " ++ kv.1)
  | none =>
    if matchup_config.args.length > 2 then .error ("too many arguments")
    else
      match matchup_config.args with
      | [p1, p2] =>
        let alternating := match matchup_config.kwargs.lookup ("alternating") with
          | some v => v
          | none => .boolV true
        let desc := match matchup_config.kwargs.lookup ("description") with
          | some v => v
          | none => .noneV
        let desc := if desc = ConfigValue.noneV
          then ConfigValue.strV (p1 ++ " v " ++ p2) else desc
        .ok { p1 := p1, p2 := p2, alternating := alternating, description := desc }
      | _ => .error ("not enough arguments")

/-- One binding update of a Python string dict: `d[k] = v` overwrites an
existing binding in place or appends a new one. -/
def dictSet (d : List (String × String)) (k v : String) : List (String × String) :=
  if d.any (fun kv => kv.1 == k) then
    d.map (fun kv => if kv.1 == k then (k, v) else kv)
  else d ++ [(k, v)]

/-- Python `d.update(new)`: every binding of `new` is set in `d`. -/
def dictUpdate (d new : List (String × String)) : List (String × String) :=
  new.foldl (fun acc kv => dictSet acc kv.1 kv.2) d

/-- The key set of an embedded dict. -/
def dictKeys (d : List (String × String)) : List String := d.map Prod.fst

/-- A CPU time entry of a GameResult: a number of seconds, Python None, or
the string marker denoting an unknown time. -/
inductive CpuTime where
  | secs (t : Rat)
  | noneV
  | unknown
  deriving DecidableEq, Repr

/-- A winning colour. -/
inductive Colour where
  | black
  | white
  deriving DecidableEq, Repr

/-- GameResult as consumed by the scheduler: the fields tournaments.py
reads.  `cpu_times` is a Python dict indexed by player code; it is embedded
as a total function (the reporting code indexes it only at the two matchup
players, which the game runner always populates). -/
structure Game_result where
  player_b : String
  player_w : String
  winning_player : Option String
  winning_colour : Option Colour
  cpu_times : String → CpuTime

/-- The response object handed to `process_game_result`: the game id, the
engine name/description maps learned from the game, and the game result. -/
structure Response where
  game_id : String
  engine_names : List (String × String)
  engine_descriptions : List (String × String)
  game_result : Game_result

/-- The state of a Tournament: the matchup list and game limit from
`initialise_from_control_file`, the checkpointed scheduler state
(`results`, `next_game_number` and the engine name/description maps, lines
88-92), and the fixed per-game parameters inherited from Competition.
`players` maps a player code to its resolved player configuration,
embedded as an opaque string. -/
structure TournamentState where
  matchups : List Matchup
  number_of_games : Option Nat
  results : List (Nat × Game_result)
  next_game_number : Nat
  engine_names : List (String × String)
  engine_descriptions : List (String × String)
  players : String → String
  board_size : Nat
  komi : Rat
  move_limit : Nat
  use_internal_scorer : Bool
  preferred_scorers : List String
  competition_code : String

/-- The checkpoint dict built by `Tournament.get_status` (lines 74-80). -/
structure TournamentStatus where
  results : List (Nat × Game_result)
  next_game_number : Nat
  engine_names : List (String × String)
  engine_descriptions : List (String × String)

/-- Method Tournament.get_status (lines 74-80). -/
def get_status (t : TournamentState) : TournamentStatus :=
  { results := t.results,
    next_game_number := t.next_game_number,
    engine_names := t.engine_names,
    engine_descriptions := t.engine_descriptions }

/-- Method Tournament.set_status (lines 82-86). -/
def set_status (t : TournamentState) (status : TournamentStatus) : TournamentState :=
  { t with
    results := status.results,
    next_game_number := status.next_game_number,
    engine_names := status.engine_names,
    engine_descriptions := status.engine_descriptions }

/-- Method Tournament.set_clean_status (lines 88-92). -/
def set_clean_status (t : TournamentState) : TournamentState :=
  { t with results := [], next_game_number := 0,
           engine_names := [], engine_descriptions := [] }

/-- Method Tournament.find_players (lines 97-109).  Returns the matchup index and
the black and white player codes; `none` models the ZeroDivisionError that
Python divmod raises when the matchup list is empty. -/
def find_players (t : TournamentState) (game_number : Nat) :
    Option (Nat × String × String) :=
  match t.matchups[game_number % t.matchups.length]? with
  | none => none
  | some matchup =>
    if matchup.alternating.truthy && (game_number / t.matchups.length) % 2 != 0 then
      some (game_number % t.matchups.length, matchup.p2, matchup.p1)
    else
      some (game_number % t.matchups.length, matchup.p1, matchup.p2)

/-- game_jobs.Game_job: the fields `Tournament.get_game` fills in. -/
structure Game_job where
  game_id : String
  player_b : String
  player_w : String
  board_size : Nat
  komi : Rat
  move_limit : Nat
  use_internal_scorer : Bool
  preferred_scorers : List String
  sgf_event : String
  deriving DecidableEq, Repr

/-- The outcome of `Tournament.get_game`: the NoGameAvailable sentinel, an
emitted Game_job, or a raised exception (ZeroDivisionError out of
`find_players` when the matchup list is empty). -/
inductive Get_game_outcome where
  | noGameAvailable
  | job (j : Game_job)
  | raisedError
  deriving DecidableEq, Repr

/-- The guard of `get_game`:
`self.number_of_games is not None and game_number >= self.number_of_games`. -/
def game_limit_reached (t : TournamentState) (game_number : Nat) : Bool :=
  match t.number_of_games with
  | some limit => decide (limit ≤ game_number)
  | none => false

/-- Method Tournament.get_game (lines 111-129), as a state transformer.  The
counter increment precedes the `find_players` call, so an exception from
`find_players` leaves the counter already incremented, as in Python. -/
def get_game (t : TournamentState) : Get_game_outcome × TournamentState :=
  let game_number := t.next_game_number
  if game_limit_reached t game_number then (.noGameAvailable, t)
  else
    let t1 := { t with next_game_number := t.next_game_number + 1 }
    match find_players t game_number with
    | none => (.raisedError, t1)
    | some (_, player_b, player_w) =>
      (.job { game_id := toString game_number,
              player_b := t.players player_b,
              player_w := t.players player_w,
              board_size := t.board_size,
              komi := t.komi,
              move_limit := t.move_limit,
              use_internal_scorer := t.use_internal_scorer,
              preferred_scorers := t.preferred_scorers,
              sgf_event := t.competition_code }, t1)

/-- Python int() applied to a string, embedded as a decimal-digit parser
over the character list: all characters must be digits and there must be
at least one, else ValueError (`none`). -/
def parseNatDigits : List Char → Option Nat → Option Nat
  | [], acc => acc
  | c :: cs, acc =>
    if 48 ≤ c.toNat ∧ c.toNat ≤ 57 then
      parseNatDigits cs (some ((acc.getD 0) * 10 + (c.toNat - 48)))
    else none

/-- Python int(s) for a game id string. -/
def str_to_nat (s : String) : Option Nat := parseNatDigits s.data none

/-- The exceptions `Tournament.process_game_result` can raise:
int() failing to parse the game id, ZeroDivisionError out of
`find_players`, and the consistency assertions. -/
inductive Process_error where
  | valueError
  | zeroDivisionError
  | assertionError
  deriving DecidableEq, Repr

/-- Method Tournament.process_game_result (lines 131-142), as a state
transformer returning the raised exception, if any, together with the
state at the point of the raise (the engine name/description maps are
updated before anything can fail, as in Python).  The `log_history` call
writes to the event log only and is not part of the state. -/
def process_game_result (t : TournamentState) (response : Response) :
    Option Process_error × TournamentState :=
  let t1 := { t with
    engine_names := dictUpdate t.engine_names response.engine_names,
    engine_descriptions := dictUpdate t.engine_descriptions response.engine_descriptions }
  match str_to_nat response.game_id with
  | none => (some .valueError, t1)
  | some game_number =>
    match find_players t1 game_number with
    | none => (some .zeroDivisionError, t1)
    | some (matchup_id, player_b, player_w) =>
      if player_b = response.game_result.player_b then
        if player_w = response.game_result.player_w then
          (none, { t1 with results := t1.results ++ [(matchup_id, response.game_result)] })
        else (some .assertionError, t1)
      else (some .assertionError, t1)

/-- The per-player CPU time list `[r.cpu_times[player] for r in results]`
of `write_matchup_report` (lines 205 and 211). -/
def cpu_time_list (results : List Game_result) (player : String) : List CpuTime :=
  results.map (fun r => r.cpu_times player)

/-- The known-valued CPU times,
`[t for t in times if t is not None and t != the unknown marker]`
(lines 206 and 212). -/
def known_times (results : List Game_result) (player : String) : List CpuTime :=
  (cpu_time_list results player).filter
    (fun tv => !(tv == CpuTime.noneV) && !(tv == CpuTime.unknown))

/-- The numeric value of a CPU time entry.  The scheduler only sums entries
that passed the known-time filter, so the value given to the two sentinel
forms is never read. -/
def CpuTime.val : CpuTime → Rat
  | .secs t => t
  | .noneV => 0
  | .unknown => 0

/-- The average CPU time figure of the matchup report (lines 207-210 and
213-216): `sum(known)/len(known)` when at least one known time exists,
otherwise `none`, rendered as the no-data marker "----". -/
def avg_cpu_time (results : List Game_result) (player : String) : Option Rat :=
  let known := known_times results player
  if known.isEmpty then none
  else some ((known.foldl (fun acc tv => acc + tv.val) 0) / (known.length : Rat))

/-- The outcome of `write_matchup_report.pct`: the no-data marker "--", the
anomalous marker "??", or a percentage value (later rendered "%.2f%%"). -/
inductive PctOutcome where
  | noData
  | undefined
  | value (q : Rat)
  deriving DecidableEq, Repr

/-- Function write_matchup_report.pct (lines 219-225).  The module imports
`division` from `__future__`, so `100 * n/baseline` is true division; the
exact rational is returned, string formatting being outside the model. -/
def pct (n baseline : Nat) : PctOutcome :=
  if baseline = 0 then
    if n = 0 then .noData else .undefined
  else .value (100 * (n : Rat) / (baseline : Rat))

/-- A GTP engine handler outcome: a success response text, a GtpError
failure, or a GtpFatalError failure that also ends the session. -/
inductive Handler_outcome where
  | ok (text : String)
  | error (msg : String)
  | fatalError (msg : String)
  deriving DecidableEq, Repr

/-- Modelled from the spec: a command handler of a Gtp_engine_protocol
(gomill/gtp_engine.py, which is not under src/).  Fixture handlers are
plain functions of the argument list; the protocol commands registered by
`add_protocol_commands` (the protocol version query, list-supported-
commands, the command-existence query and quit) consult the engine itself,
so they are kept symbolic and interpreted by the runner; `forward` and
`passthrough` are the proxy-side handlers that call into the attached back
end. -/
inductive Handler where
  | plain (f : List String → Handler_outcome)
  | protocolVersion
  | listCommands
  | knownCommand
  | quit
  | forward (name : String)
  | passthrough

/-- The command names of an engine command table. -/
def table_names (table : List (String × Handler)) : List String :=
  table.map Prod.fst

/-- Lexicographic order on character-code lists. -/
def leNatList : List Nat → List Nat → Bool
  | [], _ => true
  | _ :: _, [] => false
  | a :: as, b :: bs =>
    if a < b then true else if b < a then false else leNatList as bs

/-- Lexicographic string comparison by character code, the order Python
sorted() uses on these command names. -/
def strLe (a b : String) : Bool :=
  leNatList (a.data.map Char.toNat) (b.data.map Char.toNat)

/-- Insert a string into a sorted list of strings. -/
def insertSorted (s : String) : List String → List String
  | [] => [s]
  | x :: xs => if strLe s x then s :: x :: xs else x :: insertSorted s xs

/-- Python sorted(names): insertion sort in lexicographic string order. -/
def sortStrings (l : List String) : List String := l.foldr insertSorted []

/-- Modelled from the spec: interpreting one handler, given the full
command table (for the commands that consult the engine) and a `backend`
runner used by the proxy-side handlers.  Returns
(failure flag, response text, end-session flag).  The passthrough escape
with zero arguments is an error "invalid arguments"; otherwise it forwards
name and remaining arguments to the back end exactly as pass_command
would. -/
def run_handler (table : List (String × Handler))
    (backend : String → List String → Bool × String × Bool)
    (h : Handler) (args : List String) : Bool × String × Bool :=
  match h with
  | .plain f =>
    match f args with
    | .ok text => (false, text, false)
    | .error msg => (true, msg, false)
    | .fatalError msg => (true, msg, true)
  | .protocolVersion => (false, "2", false)
  | .listCommands =>
    (false, String.intercalate ("\n") (sortStrings (table_names table)), false)
  | .knownCommand =>
    (false,
     if (args.head?.map (fun a => (table_names table).contains a)).getD false
     then ("true") else ("false"),
     false)
  | .quit => (false, "", true)
  | .forward name => backend name args
  | .passthrough =>
    match args with
    | [] => (true, "invalid arguments", false)
    | name :: rest => backend name rest

/-- Modelled from the spec: Gtp_engine_protocol.run_command — look the
command up in the table, interpret its handler; an unknown command is a
failure. -/
def engine_run (table : List (String × Handler))
    (backend : String → List String → Bool × String × Bool)
    (cmd : String) (args : List String) : Bool × String × Bool :=
  match table.lookup cmd with
  | none => (true, "unknown command", false)
  | some h => run_handler table backend h args

/-- The backend runner of an engine with no proxy handlers (never invoked
on such an engine). -/
def no_backend : String → List String → Bool × String × Bool :=
  fun _ _ => (true, "unknown command", false)

/-- Fixture handle_test of get_test_engine (gtp_engine_fixtures.py lines
33-37). -/
def handle_test (args : List String) : Handler_outcome :=
  if !args.isEmpty then .ok ("args: " ++ String.intercalate (" ") args)
  else .ok ("test response")

/-- Fixture handle_multiline (gtp_engine_fixtures.py lines 39-40). -/
def handle_multiline (_args : List String) : Handler_outcome :=
  .ok ("first line  \n  second line\nthird line")

/-- Fixture handle_error (gtp_engine_fixtures.py lines 42-43). -/
def handle_error (_args : List String) : Handler_outcome :=
  .error ("normal error")

/-- Fixture handle_fatal_error (gtp_engine_fixtures.py lines 45-46). -/
def handle_fatal_error (_args : List String) : Handler_outcome :=
  .fatalError ("fatal error")

/-- The test engine built by get_test_engine (gtp_engine_fixtures.py lines
48-54): the protocol commands added by `add_protocol_commands` (modelled
from the spec, which names the protocol version query, list-supported-
commands, the command-existence query and quit as the protocol basics)
plus the four fixture commands. -/
def test_engine_table : List (String × Handler) :=
  [("protocol_version", .protocolVersion),
   ("known_command", .knownCommand),
   ("list_commands", .listCommands),
   ("quit", .quit),
   ("test", .plain handle_test),
   ("multiline", .plain handle_multiline),
   ("error", .plain handle_error),
   ("fatal", .plain handle_fatal_error)]

/-- Running one command against the test back end (through its controller,
the transport being outside the model). -/
def backend_run (cmd : String) (args : List String) : Bool × String × Bool :=
  engine_run test_engine_table no_backend cmd args

/-- Modelled from the spec: the command table of a fresh Gtp_proxy
(gomill/gtp_proxy.py, which is not under src/) always holds the reserved
meta-commands — the protocol version query, list-supported-commands, the
command-existence query, quit, and the gomill-passthrough escape — even
before a back end is attached. -/
def proxy_local_table : List (String × Handler) :=
  [("protocol_version", .protocolVersion),
   ("known_command", .knownCommand),
   ("list_commands", .listCommands),
   ("quit", .quit),
   ("gomill-passthrough", .passthrough)]

/-- Modelled from the spec: Gtp_proxy.set_back_end_controller performs one
list-commands exchange to enumerate the advertised back-end commands and
registers a forwarding handler for every advertised name not already
locally handled. -/
def set_back_end_controller (local_table : List (String × Handler))
    (advertised : List String) : List (String × Handler) :=
  advertised.foldl
    (fun tbl name =>
      if (table_names tbl).contains name then tbl
      else tbl ++ [(name, .forward name)])
    local_table

/-- The proxy attached to the test back end, as built by _make_proxy in
gtp_proxy_tests.py (lines 48-53): the advertised list is the back end
response to list_commands, i.e. the sorted names of the test engine
table. -/
def test_proxy_table : List (String × Handler) :=
  set_back_end_controller proxy_local_table
    (sortStrings (table_names test_engine_table))

/-- Modelled from the spec: proxy.engine.list_commands(), the sorted
supported-command list of the proxy engine. -/
def proxy_list_commands : List String :=
  sortStrings (table_names test_proxy_table)

/-- Modelled from the spec: running one command against the proxy engine —
a locally registered handler wins, else a back-end-advertised command is
forwarded, else unknown-command failure. -/
def proxy_run (cmd : String) (args : List String) : Bool × String × Bool :=
  engine_run test_proxy_table backend_run cmd args

/-- The scheduler state after `k` successive get_game calls. -/
def run_get_game (t : TournamentState) : Nat → TournamentState
  | 0 => t
  | k + 1 => (get_game (run_get_game t k)).2

/-- The scheduler state after ingesting a list of responses in order. -/
def run_results (t : TournamentState) : List Response → TournamentState
  | [] => t
  | r :: rs => run_results (process_game_result t r).2 rs

/-- A concrete alternating matchup, used by the witnesses. -/
def exMatchup1 : Matchup :=
  { p1 := "alpha", p2 := "beta",
    alternating := .boolV true, description := .strV ("alpha v beta") }

/-- A concrete non-alternating matchup, used by the witnesses. -/
def exMatchup2 : Matchup :=
  { p1 := "gamma", p2 := "delta",
    alternating := .boolV false, description := .strV ("gamma v delta") }

/-- A concrete two-matchup tournament with a three-game limit, used by the
witnesses. -/
def exTournament : TournamentState :=
  { matchups := [exMatchup1, exMatchup2],
    number_of_games := some 3,
    results := [],
    next_game_number := 0,
    engine_names := [("alpha", "Alpha v1")],
    engine_descriptions := [],
    players := fun c => c,
    board_size := 9,
    komi := 15 / 2,
    move_limit := 400,
    use_internal_scorer := true,
    preferred_scorers := [],
    competition_code := "testcomp" }

/-- A concrete game result with known CPU times, used by the witnesses. -/
def exResultKnown : Game_result :=
  { player_b := "alpha", player_w := "beta",
    winning_player := some ("alpha"), winning_colour := some Colour.black,
    cpu_times := fun _ => CpuTime.secs 4 }

/-- A concrete game result whose CPU times carry the unknown marker, used
by the witnesses. -/
def exResultUnknown : Game_result :=
  { player_b := "beta", player_w := "alpha",
    winning_player := none, winning_colour := none,
    cpu_times := fun _ => CpuTime.unknown }

/-- The Matchup_config used by the C10 witness. -/
def exConfig : Matchup_config :=
  { args := ["alpha", "beta"], kwargs := [] }

/-- A response for game 0 whose players match the schedule, used by the
witnesses. -/
def exResponseGood : Response :=
  { game_id := "0",
    engine_names := [("alpha", "Alpha v1"), ("beta", "Beta v2")],
    engine_descriptions := [("alpha", "desc a")],
    game_result := exResultKnown }

/-- A response for game 0 whose players are swapped relative to the
schedule, used by the witnesses. -/
def exResponseBad : Response :=
  { game_id := "0",
    engine_names := [],
    engine_descriptions := [],
    game_result := exResultUnknown }

/-!
Theorems: one theorem per claim of the specification, with concrete
witnesses where the claim theorem carries hypotheses.
-/

/-- C3: capturing the checkpoint with get_status and restoring it with
set_status reproduces exactly the same next_game_number, the same results
sequence in the same order, and the same engine_names and
engine_descriptions maps, whatever tournament it is restored into. -/
theorem status_roundtrip (t u : TournamentState) :
    (set_status u (get_status t)).next_game_number = t.next_game_number ∧
    (set_status u (get_status t)).results = t.results ∧
    (set_status u (get_status t)).engine_names = t.engine_names ∧
    (set_status u (get_status t)).engine_descriptions = t.engine_descriptions :=
  ⟨rfl, rfl, rfl, rfl⟩

/-- C5: after set_back_end_controller on a back end advertising test,
multiline, error and fatal plus the protocol basics, the proxy supports
exactly the sorted, duplicate-free union of the local meta-commands and
the back-end commands not locally shadowed. -/
theorem proxy_list_commands_exact :
    proxy_list_commands =
      ["error", "fatal", "gomill-passthrough", "known_command",
       "list_commands", "multiline", "protocol_version", "quit", "test"] := by
  decide

/-- C6: gomill-passthrough with zero arguments fails with
"invalid arguments"; with arguments known_command gomill-passthrough it
succeeds with "false" (the passthrough name is never a back-end command);
with arguments test ab cd it succeeds with "args: ab cd" (forwarded to the
back end verbatim). -/
theorem passthrough_behaviour :
    proxy_run ("gomill-passthrough") [] = (true, "invalid arguments", false) ∧
    proxy_run ("gomill-passthrough") ["known_command", "gomill-passthrough"] =
      (false, "false", false) ∧
    proxy_run ("gomill-passthrough") ["test", "ab", "cd"] =
      (false, "args: ab cd", false) := by
  refine ⟨?_, ?_, ?_⟩ <;> decide

/-- C9: the percentage formatter never raises: with a zero denominator it
returns the no-data marker when the numerator is zero and the anomalous
undefined marker otherwise; with a nonzero denominator it returns the
percentage 100*n/baseline. -/
theorem pct_spec (n baseline : Nat) :
    (baseline = 0 → pct n baseline =
      (if n = 0 then PctOutcome.noData else PctOutcome.undefined)) ∧
    (baseline ≠ 0 → pct n baseline =
      PctOutcome.value (100 * (n : Rat) / (baseline : Rat))) := by
  constructor
  · intro h
    simp [pct, h]
  · intro h
    simp [pct, h]

/-- Witness for C9 at concrete inputs: pct 0 0, pct 3 0 and pct 1 4. -/
theorem pct_spec_witness :
    pct 0 0 = PctOutcome.noData ∧
    pct 3 0 = PctOutcome.undefined ∧
    pct 1 4 = PctOutcome.value 25 := by
  refine ⟨?_, ?_, ?_⟩
  · have h := (pct_spec 0 0).1 rfl
    simpa using h
  · have h := (pct_spec 3 0).1 rfl
    simpa using h
  · have h := (pct_spec 1 4).2 (by norm_num)
    rw [h]
    norm_num

/-- C10: matchup_from_config raises ValueError exactly when there are not
two positional arguments or a keyword argument other than alternating and
description is present; otherwise it returns a Matchup whose p1 and p2 are
the two positional arguments, with alternating defaulting to true and
description defaulting to the two player codes joined by " v " when not
supplied. -/
theorem matchup_from_config_spec (mc : Matchup_config) :
    ((∃ e, matchup_from_config mc = .error e) ↔
      (mc.args.length ≠ 2 ∨
        ∃ kv ∈ mc.kwargs, kv.1 ≠ "alternating" ∧ kv.1 ≠ "description")) ∧
    (∀ p1 p2, mc.args = [p1, p2] →
      (∀ kv ∈ mc.kwargs, kv.1 = "alternating" ∨ kv.1 = "description") →
      ∃ m, matchup_from_config mc = .ok m ∧ m.p1 = p1 ∧ m.p2 = p2 ∧
        (mc.kwargs.lookup ("alternating") = none →
          m.alternating = ConfigValue.boolV true) ∧
        (mc.kwargs.lookup ("description") = none →
          m.description = ConfigValue.strV (p1 ++ " v " ++ p2))) := by
  rcases hf : mc.kwargs.find?
      (fun kv => !(kv.1 == "alternating" || kv.1 == "description")) with _ | kv
  case none =>
    have hall : ∀ kv ∈ mc.kwargs, kv.1 = "alternating" ∨ kv.1 = "description" := by
      intro kv hkv
      have h := List.find?_eq_none.mp hf kv hkv
      rcases eq_or_ne kv.1 ("alternating") with h1 | h1
      · exact Or.inl h1
      · right
        by_contra h2
        simp [h1, h2] at h
    have hnobad : ¬ ∃ kv ∈ mc.kwargs,
        kv.1 ≠ "alternating" ∧ kv.1 ≠ "description" := by
      rintro ⟨kv, hkv, h1, h2⟩
      rcases hall kv hkv with h | h
      · exact h1 h
      · exact h2 h
    rcases hargs : mc.args with _ | ⟨a, _ | ⟨b, _ | ⟨c, rest⟩⟩⟩
    case nil =>
      have hlen : ¬ mc.args.length > 2 := by rw [hargs]; simp
      have hcomp : matchup_from_config mc = .error ("not enough arguments") := by
        unfold matchup_from_config
        rw [hf, if_neg hlen, hargs]
      refine ⟨⟨fun _ => Or.inl (by simp), fun _ => ⟨_, hcomp⟩⟩, ?_⟩
      intro p1 p2 habs
      simp at habs
    case cons.nil =>
      have hlen : ¬ mc.args.length > 2 := by rw [hargs]; simp
      have hcomp : matchup_from_config mc = .error ("not enough arguments") := by
        unfold matchup_from_config
        rw [hf, if_neg hlen, hargs]
      refine ⟨⟨fun _ => Or.inl (by simp), fun _ => ⟨_, hcomp⟩⟩, ?_⟩
      intro p1 p2 habs
      simp at habs
    case cons.cons.nil =>
      have hlen : ¬ mc.args.length > 2 := by rw [hargs]; simp
      have hcomp : ∃ m, matchup_from_config mc = Except.ok m ∧
          m.p1 = a ∧ m.p2 = b ∧
          (mc.kwargs.lookup ("alternating") = none →
            m.alternating = ConfigValue.boolV true) ∧
          (mc.kwargs.lookup ("description") = none →
            m.description = ConfigValue.strV (a ++ " v " ++ b)) := by
        unfold matchup_from_config
        rw [hf, if_neg hlen, hargs]
        exact ⟨_, rfl, rfl, rfl,
          fun h => by simp [h], fun h => by simp [h]⟩
      obtain ⟨m, hok, hp1, hp2, halt, hdesc⟩ := hcomp
      constructor
      · constructor
        · rintro ⟨e, he⟩
          rw [hok] at he
          cases he
        · rintro (h | h)
          · exact absurd rfl h
          · exact absurd h hnobad
      · intro p1 p2 heq _
        have hab : a = p1 ∧ b = p2 := by
          simpa using heq
        obtain ⟨rfl, rfl⟩ := hab
        exact ⟨m, hok, hp1, hp2, halt, hdesc⟩
    case cons.cons.cons =>
      have hlen : mc.args.length > 2 := by rw [hargs]; simp
      have hcomp : matchup_from_config mc = .error ("too many arguments") := by
        unfold matchup_from_config
        rw [hf, if_pos hlen]
      refine ⟨⟨fun _ => Or.inl (by simp), fun _ => ⟨_, hcomp⟩⟩, ?_⟩
      intro p1 p2 habs
      simp at habs
  case some =>
    have hkv := List.find?_some hf
    have hmem := List.mem_of_find?_eq_some hf
    have hbad : kv.1 ≠ "alternating" ∧ kv.1 ≠ "description" := by
      simpa using hkv
    have hcomp : matchup_from_config mc = .error ("unknown argument " ++ kv.1) := by
      unfold matchup_from_config
      rw [hf]
    constructor
    · exact ⟨fun _ => Or.inr ⟨kv, hmem, hbad⟩, fun _ => ⟨_, hcomp⟩⟩
    · intro p1 p2 _ hgood
      rcases hgood kv hmem with h | h
      · exact absurd h hbad.1
      · exact absurd h hbad.2

/-- Witness for C10: a two-argument config with no keyword arguments
yields a Matchup with the default alternation and description. -/
theorem matchup_from_config_spec_witness :
    ∃ m, matchup_from_config exConfig = Except.ok m ∧
      m.alternating = ConfigValue.boolV true ∧
      m.description = ConfigValue.strV ("alpha v beta") := by
  obtain ⟨m, hok, hp1, hp2, halt, hdesc⟩ :=
    (matchup_from_config_spec exConfig).2 "alpha" "beta" rfl
      (by intro kv hkv; simp [exConfig] at hkv)
  refine ⟨m, hok, halt rfl, ?_⟩
  rw [hdesc rfl]
  decide

/-- C1: find_players returns matchup index game_number mod n; black and
white are the matchup p1 and p2 in declared order unless the matchup
alternates and game_number div n is odd, in which case they are swapped;
hence game g+n maps to the same matchup index, with colours swapped
exactly when the matchup alternates. -/
theorem find_players_mod_alternation (t : TournamentState) (g : Nat) (m : Matchup)
    (hm : t.matchups[g % t.matchups.length]? = some m) :
    find_players t g = some (g % t.matchups.length,
      if m.alternating.truthy = true ∧ (g / t.matchups.length) % 2 = 1
      then (m.p2, m.p1) else (m.p1, m.p2)) ∧
    find_players t (g + t.matchups.length) = some (g % t.matchups.length,
      if m.alternating.truthy = true
      then (if (g / t.matchups.length) % 2 = 1 then (m.p1, m.p2) else (m.p2, m.p1))
      else (m.p1, m.p2)) := by
  obtain ⟨hlt, -⟩ := List.getElem?_eq_some.mp hm
  have hpos : 0 < t.matchups.length := Nat.lt_of_le_of_lt (Nat.zero_le _) hlt
  have key : ∀ k, t.matchups[k % t.matchups.length]? = some m →
      find_players t k =
        (if m.alternating.truthy && (k / t.matchups.length) % 2 != 0
         then some (k % t.matchups.length, m.p2, m.p1)
         else some (k % t.matchups.length, m.p1, m.p2)) := by
    intro k hk
    unfold find_players
    rw [hk]
  constructor
  · rw [key g hm]
    by_cases halt : m.alternating.truthy = true
    · by_cases hodd : (g / t.matchups.length) % 2 = 1
      · simp [halt, hodd]
      · have h0 : (g / t.matchups.length) % 2 = 0 := by omega
        simp [halt, hodd, h0]
    · have hf : m.alternating.truthy = false := by
        cases h : m.alternating.truthy
        · rfl
        · exact absurd h halt
      simp [hf]
  · have hm2 : t.matchups[(g + t.matchups.length) % t.matchups.length]? = some m := by
      rw [Nat.add_mod_right]
      exact hm
    rw [key (g + t.matchups.length) hm2, Nat.add_mod_right, Nat.add_div_right g hpos]
    by_cases halt : m.alternating.truthy = true
    · by_cases hodd : (g / t.matchups.length) % 2 = 1
      · have h1 : (g / t.matchups.length + 1) % 2 = 0 := by omega
        simp [halt, hodd, h1]
      · have h1 : (g / t.matchups.length + 1) % 2 = 1 := by omega
        simp [halt, hodd, h1]
    · have hf : m.alternating.truthy = false := by
        cases h : m.alternating.truthy
        · rfl
        · exact absurd h halt
      simp [hf]

/-- Witness for C1: in the concrete two-matchup tournament, game 2 is the
alternating matchup with colours swapped and game 4 = 2 + n has them back
in declared order. -/
theorem find_players_mod_alternation_witness :
    find_players exTournament 2 = some (0, "beta", "alpha") ∧
    find_players exTournament 4 = some (0, "alpha", "beta") := by
  have h := find_players_mod_alternation exTournament 2 exMatchup1 rfl
  constructor
  · rw [h.1]
    rfl
  · have h4 := h.2
    have hlen : 2 + exTournament.matchups.length = 4 := rfl
    rw [hlen] at h4
    rw [h4]
    decide

/-- Summing CPU time values with a running accumulator equals the
accumulator plus the list sum. -/
lemma foldl_add_val (c : Rat) (l : List CpuTime) :
    l.foldl (fun acc tv => acc + tv.val) c = c + (l.map CpuTime.val).sum := by
  induction l generalizing c with
  | nil => simp
  | cons x xs ih =>
    rw [List.foldl_cons, ih]
    simp [add_assoc]

/-- C8: the per-matchup average CPU time is computed over only the
known-valued entries — a result whose entry for the player is the None or
unknown sentinel changes neither the sum nor the count; when every entry
is a sentinel the no-data marker results; and over all-known results the
average is the plain mean over all entries. -/
theorem avg_cpu_time_spec (results : List Game_result) (r : Game_result)
    (player : String) :
    (r.cpu_times player = CpuTime.noneV ∨ r.cpu_times player = CpuTime.unknown →
      avg_cpu_time (r :: results) player = avg_cpu_time results player) ∧
    ((∀ s ∈ results, s.cpu_times player = CpuTime.noneV ∨
        s.cpu_times player = CpuTime.unknown) →
      avg_cpu_time results player = none) ∧
    ((∀ s ∈ results, ∃ q, s.cpu_times player = CpuTime.secs q) →
      results ≠ [] →
      avg_cpu_time results player =
        some ((results.map (fun s => (s.cpu_times player).val)).sum /
          (results.length : Rat))) := by
  refine ⟨?_, ?_, ?_⟩
  · intro h
    have hfilt : known_times (r :: results) player = known_times results player := by
      unfold known_times cpu_time_list
      rcases h with h | h <;> simp [h]
    unfold avg_cpu_time
    rw [hfilt]
  · intro h
    have hfilt : known_times results player = [] := by
      unfold known_times cpu_time_list
      rw [List.filter_eq_nil_iff]
      intro tv htv
      simp only [List.mem_map] at htv
      obtain ⟨s, hs, rfl⟩ := htv
      rcases h s hs with h2 | h2 <;> simp [h2]
    unfold avg_cpu_time
    rw [hfilt]
    rfl
  · intro h hne
    have hfilt : known_times results player = cpu_time_list results player := by
      unfold known_times
      rw [List.filter_eq_self]
      intro tv htv
      simp only [cpu_time_list, List.mem_map] at htv
      obtain ⟨s, hs, rfl⟩ := htv
      obtain ⟨q, hq⟩ := h s hs
      simp [hq]
    unfold avg_cpu_time
    rw [hfilt]
    have hne2 : ¬ (cpu_time_list results player).isEmpty = true := by
      simp [cpu_time_list, List.isEmpty_iff, hne]
    rw [if_neg hne2, foldl_add_val]
    simp [cpu_time_list, List.map_map, Function.comp_def]

/-- Witness for C8: prepending an unknown-time result leaves the average
unchanged, and a single unknown-time result yields the no-data marker. -/
theorem avg_cpu_time_spec_witness :
    avg_cpu_time [exResultUnknown, exResultKnown] "alpha" =
      avg_cpu_time [exResultKnown] "alpha" ∧
    avg_cpu_time [exResultUnknown] "alpha" = none := by
  constructor
  · exact (avg_cpu_time_spec [exResultKnown] exResultUnknown ("alpha")).1 (Or.inr rfl)
  · refine (avg_cpu_time_spec [exResultUnknown] exResultKnown ("alpha")).2.1 ?_
    intro s hs
    rcases List.mem_singleton.mp hs with rfl
    exact Or.inr rfl

/-- `find_players` reads only the matchup list of the state. -/
lemma find_players_matchups_eq (t u : TournamentState) (g : Nat)
    (h : t.matchups = u.matchups) : find_players t g = find_players u g := by
  unfold find_players
  rw [h]

/-- C4: process_game_result raises the consistency assertion, leaving the
results log unchanged, whenever the reported black or white player code
differs from what find_players scheduled for that game number, and appends
(matchup_id, result) to the results log when both codes match. -/
theorem process_game_result_consistency (t : TournamentState) (response : Response)
    (g : Nat) (hid : str_to_nat response.game_id = some g)
    (mid : Nat) (pb pw : String)
    (hfp : find_players t g = some (mid, pb, pw)) :
    ((response.game_result.player_b ≠ pb ∨ response.game_result.player_w ≠ pw) →
      (process_game_result t response).1 = some Process_error.assertionError ∧
      (process_game_result t response).2.results = t.results) ∧
    (response.game_result.player_b = pb → response.game_result.player_w = pw →
      (process_game_result t response).1 = none ∧
      (process_game_result t response).2.results =
        t.results ++ [(mid, response.game_result)]) := by
  have hfp1 : find_players { t with
      engine_names := dictUpdate t.engine_names response.engine_names,
      engine_descriptions :=
        dictUpdate t.engine_descriptions response.engine_descriptions } g =
      some (mid, pb, pw) := by
    exact (find_players_matchups_eq _ t g rfl).trans hfp
  constructor
  · intro h
    by_cases hb : pb = response.game_result.player_b
    · have hw : ¬ pw = response.game_result.player_w := by
        rcases h with h | h
        · exact absurd hb.symm h
        · exact fun he => h he.symm
      simp [process_game_result, hid, hfp1, hb, hw]
    · simp [process_game_result, hid, hfp1, hb]
  · intro hb hw
    simp [process_game_result, hid, hfp1, hb.symm, hw.symm]

/-- Witness for C4: for game 0 of the concrete tournament, a swapped
response is rejected by the assertion and a matching response is
appended. -/
theorem process_game_result_consistency_witness :
    (process_game_result exTournament exResponseBad).1 =
      some Process_error.assertionError ∧
    (process_game_result exTournament exResponseGood).1 = none := by
  constructor
  · exact ((process_game_result_consistency exTournament exResponseBad 0 (by decide)
      0 ("alpha") ("beta") (by decide)).1 (Or.inl (by decide))).1
  · exact ((process_game_result_consistency exTournament exResponseGood 0 (by decide)
      0 ("alpha") ("beta") (by decide)).2 rfl rfl).1

/-- `get_game` only ever touches the game counter: it leaves the state
unchanged when the limit is reached and advances the counter by one
otherwise. -/
lemma get_game_state (t : TournamentState) :
    (get_game t).2 = (if game_limit_reached t t.next_game_number
      then t else { t with next_game_number := t.next_game_number + 1 }) := by
  by_cases h : game_limit_reached t t.next_game_number = true
  · simp only [get_game, h, if_true]
  · have hf : game_limit_reached t t.next_game_number = false := by
      cases hx : game_limit_reached t t.next_game_number
      · rfl
      · exact absurd hx h
    simp only [get_game, hf, if_false, Bool.false_eq_true]
    rcases hfp : find_players t t.next_game_number with _ | ⟨mid, pb, pw⟩
    · simp [hfp]
    · simp [hfp]

/-- With a nonempty matchup list, `find_players` always yields a player
assignment. -/
lemma find_players_some (t : TournamentState) (g : Nat)
    (hm : 0 < t.matchups.length) :
    ∃ mid pb pw, find_players t g = some (mid, pb, pw) := by
  simp only [find_players, List.getElem?_eq_getElem (Nat.mod_lt g hm)]
  split
  · exact ⟨_, _, _, rfl⟩
  · exact ⟨_, _, _, rfl⟩

/-- Below the limit, `get_game` emits a job whose game id is the current
counter. -/
lemma get_game_emits (t : TournamentState) (hm : 0 < t.matchups.length)
    (hl : game_limit_reached t t.next_game_number = false) :
    ∃ j, (get_game t).1 = Get_game_outcome.job j ∧
      j.game_id = toString t.next_game_number := by
  obtain ⟨mid, pb, pw, hfp⟩ := find_players_some t t.next_game_number hm
  have h1 : (get_game t).1 = Get_game_outcome.job
      { game_id := toString t.next_game_number,
        player_b := t.players pb, player_w := t.players pw,
        board_size := t.board_size, komi := t.komi, move_limit := t.move_limit,
        use_internal_scorer := t.use_internal_scorer,
        preferred_scorers := t.preferred_scorers,
        sgf_event := t.competition_code } := by
    simp only [get_game, hl, if_false, Bool.false_eq_true, hfp]
  exact ⟨_, h1, rfl⟩

/-- At or past the limit, `get_game` returns the NoGameAvailable sentinel
and the unchanged state. -/
lemma get_game_no_game (t : TournamentState)
    (h : game_limit_reached t t.next_game_number = true) :
    get_game t = (Get_game_outcome.noGameAvailable, t) := by
  simp only [get_game, h, if_true]

/-- After k get_game calls from a clean counter, the state is the original
with the counter advanced to min k limit (to k when unlimited). -/
lemma run_get_game_state (t0 : TournamentState) (h0 : t0.next_game_number = 0)
    (k : Nat) :
    run_get_game t0 k = { t0 with next_game_number :=
      match t0.number_of_games with
      | some limit => min k limit
      | none => k } := by
  induction k with
  | zero =>
    have hmin : (match t0.number_of_games with
        | some limit => min 0 limit
        | none => 0) = t0.next_game_number := by
      rw [h0]
      cases t0.number_of_games <;> simp
    simp only [run_get_game, hmin]
  | succ k ih =>
    rw [run_get_game, ih, get_game_state]
    rcases hL : t0.number_of_games with _ | limit
    · simp [game_limit_reached]
    · by_cases hkL : k < limit
      · have h1 : min k limit = k := Nat.min_eq_left (Nat.le_of_lt hkL)
        have h2 : min (k + 1) limit = k + 1 := Nat.min_eq_left hkL
        have hle : ¬ (limit ≤ k) := Nat.not_le.mpr hkL
        simp [game_limit_reached, h1, h2, hle]
      · have h1 : min k limit = limit := Nat.min_eq_right (Nat.le_of_not_lt hkL)
        have h2 : min (k + 1) limit = limit := Nat.min_eq_right (by omega)
        simp [game_limit_reached, h1, h2]

/-- C2: with a configured limit, each of the first limit get_game calls
emits the job for the next game number and advances the counter by one
without touching the results log, and every call from the limit onwards
returns the NoGameAvailable sentinel with the state unchanged; with no
limit, the emitted game numbers are the unbounded sequence 0, 1, 2, ... -/
theorem get_game_schedule (t0 : TournamentState) (h0 : t0.next_game_number = 0)
    (hm : 0 < t0.matchups.length) :
    (∀ limit, t0.number_of_games = some limit →
      (∀ k, k < limit →
        (∃ j, (get_game (run_get_game t0 k)).1 = Get_game_outcome.job j ∧
          j.game_id = toString k) ∧
        (run_get_game t0 (k + 1)).next_game_number = k + 1 ∧
        (run_get_game t0 (k + 1)).results = t0.results) ∧
      (∀ k, limit ≤ k →
        get_game (run_get_game t0 k) =
          (Get_game_outcome.noGameAvailable, run_get_game t0 k))) ∧
    (t0.number_of_games = none →
      ∀ k, (run_get_game t0 k).next_game_number = k ∧
        ∃ j, (get_game (run_get_game t0 k)).1 = Get_game_outcome.job j ∧
          j.game_id = toString k) := by
  constructor
  · intro limit hL
    constructor
    · intro k hk
      have hrun := run_get_game_state t0 h0 k
      have hmink : (match t0.number_of_games with
          | some limit => min k limit
          | none => k) = k := by
        rw [hL]
        exact Nat.min_eq_left (Nat.le_of_lt hk)
      have hcount : (run_get_game t0 k).next_game_number = k := by
        rw [hrun, hmink]
      have hlr : game_limit_reached (run_get_game t0 k)
          ((run_get_game t0 k).next_game_number) = false := by
        rw [hcount, hrun]
        simp [game_limit_reached, hL]
        omega
      have hmats : 0 < (run_get_game t0 k).matchups.length := by
        rw [hrun]
        exact hm
      refine ⟨?_, ?_, ?_⟩
      · obtain ⟨j, hj, hid⟩ := get_game_emits (run_get_game t0 k) hmats hlr
        rw [hcount] at hid
        exact ⟨j, hj, hid⟩
      · rw [run_get_game_state t0 h0 (k + 1), hL]
        simp [Nat.min_eq_left hk]
      · rw [run_get_game_state t0 h0 (k + 1)]
    · intro k hk
      have hrun := run_get_game_state t0 h0 k
      have hcount : (run_get_game t0 k).next_game_number = min k limit := by
        rw [hrun, hL]
      have hlr : game_limit_reached (run_get_game t0 k)
          ((run_get_game t0 k).next_game_number) = true := by
        rw [hcount, hrun]
        simp [game_limit_reached, hL]
        omega
      exact get_game_no_game (run_get_game t0 k) hlr
  · intro hL k
    have hrun := run_get_game_state t0 h0 k
    have hcount : (run_get_game t0 k).next_game_number = k := by
      rw [hrun, hL]
    have hlr : game_limit_reached (run_get_game t0 k)
        ((run_get_game t0 k).next_game_number) = false := by
      rw [hcount, hrun]
      simp [game_limit_reached, hL]
    have hmats : 0 < (run_get_game t0 k).matchups.length := by
      rw [hrun]
      exact hm
    refine ⟨hcount, ?_⟩
    obtain ⟨j, hj, hid⟩ := get_game_emits (run_get_game t0 k) hmats hlr
    rw [hcount] at hid
    exact ⟨j, hj, hid⟩

/-- Witness for C2: in the concrete limit-3 tournament, call number 2
(game number 1) emits a job and the call after the limit returns the
sentinel with the state unchanged. -/
theorem get_game_schedule_witness :
    ((∃ j, (get_game (run_get_game exTournament 1)).1 = Get_game_outcome.job j ∧
       j.game_id = toString 1) ∧
     (run_get_game exTournament 2).next_game_number = 2) ∧
    get_game (run_get_game exTournament 3) =
      (Get_game_outcome.noGameAvailable, run_get_game exTournament 3) := by
  obtain ⟨hsome, -⟩ := get_game_schedule exTournament rfl (by decide)
  obtain ⟨hlt, hge⟩ := hsome 3 rfl
  obtain ⟨hj, hcount, -⟩ := hlt 1 (by decide)
  exact ⟨⟨hj, hcount⟩, hge 3 (by decide)⟩

/-- Setting one binding can only enlarge the key set of a dict. -/
lemma mem_dictKeys_dictSet (d : List (String × String)) (k v a : String)
    (h : a ∈ dictKeys d) : a ∈ dictKeys (dictSet d k v) := by
  unfold dictSet
  split
  · unfold dictKeys at h ⊢
    rw [List.map_map]
    simp only [List.mem_map] at h ⊢
    obtain ⟨kv, hkv, rfl⟩ := h
    refine ⟨kv, hkv, ?_⟩
    by_cases hb : kv.1 == k
    · simp only [Function.comp_apply, hb, if_true]
      exact (eq_of_beq hb).symm
    · simp only [Function.comp_apply]
      rw [if_neg (by simpa using hb)]
  · unfold dictKeys at h ⊢
    rw [List.map_append, List.mem_append]
    exact Or.inl h

/-- Folding dictSet over a binding list can only enlarge the key set. -/
lemma mem_dictKeys_foldl (new : List (String × String)) :
    ∀ d a, a ∈ dictKeys d →
      a ∈ dictKeys (new.foldl (fun acc kv => dictSet acc kv.1 kv.2) d) := by
  induction new with
  | nil =>
    intro d a h
    exact h
  | cons kv rest ih =>
    intro d a h
    rw [List.foldl_cons]
    exact ih _ a (mem_dictKeys_dictSet _ _ _ _ h)

/-- A dict update can only enlarge the key set. -/
lemma mem_dictKeys_dictUpdate (d new : List (String × String)) (a : String)
    (h : a ∈ dictKeys d) : a ∈ dictKeys (dictUpdate d new) :=
  mem_dictKeys_foldl new d a h

/-- Whatever else happens inside process_game_result, the engine name and
description maps of the resulting state are the dict updates of the given
state (the updates happen before any check can fail). -/
lemma process_game_result_maps (t : TournamentState) (r : Response) :
    (process_game_result t r).2.engine_names =
      dictUpdate t.engine_names r.engine_names ∧
    (process_game_result t r).2.engine_descriptions =
      dictUpdate t.engine_descriptions r.engine_descriptions := by
  rcases hid : str_to_nat r.game_id with _ | n
  · simp [process_game_result, hid]
  · rcases hfp : find_players { t with
        engine_names := dictUpdate t.engine_names r.engine_names,
        engine_descriptions :=
          dictUpdate t.engine_descriptions r.engine_descriptions } n
      with _ | ⟨⟨mid, pb, pw⟩⟩
    · simp [process_game_result, hid, hfp]
    · by_cases hb : pb = r.game_result.player_b
      · by_cases hw : pw = r.game_result.player_w
        · simp [process_game_result, hid, hfp, hb, hw]
        · simp [process_game_result, hid, hfp, hb, hw]
      · simp [process_game_result, hid, hfp, hb]

/-- C7: over any sequence of process_game_result calls, the cumulative
engine_names and engine_descriptions maps only grow in the set of player
codes they cover — no entry learned from an earlier game is lost. -/
theorem engine_maps_monotone (t : TournamentState) (rs : List Response)
    (code : String) :
    (code ∈ dictKeys t.engine_names →
      code ∈ dictKeys (run_results t rs).engine_names) ∧
    (code ∈ dictKeys t.engine_descriptions →
      code ∈ dictKeys (run_results t rs).engine_descriptions) := by
  induction rs generalizing t with
  | nil => exact ⟨id, id⟩
  | cons r rest ih =>
    constructor
    · intro h
      have h2 : code ∈ dictKeys (process_game_result t r).2.engine_names := by
        rw [(process_game_result_maps t r).1]
        exact mem_dictKeys_dictUpdate _ _ _ h
      exact (ih ((process_game_result t r).2)).1 h2
    · intro h
      have h2 : code ∈ dictKeys (process_game_result t r).2.engine_descriptions := by
        rw [(process_game_result_maps t r).2]
        exact mem_dictKeys_dictUpdate _ _ _ h
      exact (ih ((process_game_result t r).2)).2 h2

/-- Witness for C7: the player code known before the concrete response is
still covered after ingesting it. -/
theorem engine_maps_monotone_witness :
    "alpha" ∈ dictKeys (run_results exTournament [exResponseGood]).engine_names :=
  (engine_maps_monotone exTournament [exResponseGood] ("alpha")).1 (by decide)

end Gomill
